import Mathlib

/-
Verification of the progress-aggregator logic in src/script/boardProgressbar.js.

Shallow embedding conventions:
- A JS subtask object is a `Subtask`: its `completed` boolean plus one opaque
  `payload` field standing for all other (untouched) fields.
- A JS task object is a `Task` with `id`, `category`, an optional `subtasks`
  array (the code guards `!task.subtasks`, so absence is representable), and an
  opaque `payload` for the remaining fields.
- JS values passed to the percentage functions are `JsValue`: either an actual
  array of subtasks or any non-array value (all non-arrays behave alike, since
  the code only tests `Array.isArray`).
- In-place mutation is modelled by returning the updated task; side effects
  (console logging, the fetch PUT, DOM updates, the Firebase sync call) are
  recorded as an ordered `List Effect`.  The collaborators `findTaskInData`,
  `syncSubtasksWithFirebase`, `getBoardOverlayTemplate` and the `TASK_URL`
  constant are not defined in the repository source; the lookup result and the
  base URL are therefore taken as parameters, and the collaborator calls are
  recorded as opaque effects.
- A thrown JS exception (an async function rejecting its promise) is an
  `Except.error` carrying a `JsError`.
- JS numbers are IEEE-754 binary64 doubles; the arithmetic in
  `Math.round((completed / total) * 100)` is modelled accordingly over exact
  rationals: `roundDouble` rounds a rational to 53 significant bits (round to
  nearest, ties to even), the division and the multiplication each round their
  exact result, and `Math.round` takes the floor of the exact double value
  plus one half (the closest integer, ties toward positive infinity), which is
  exact since every value here is far below 2 to the 53rd.  This matters: the
  double evaluation of (23 / 40) * 100 is strictly below 57.5, so the code
  returns 57 where exact round-half-up of 57.5 would give 58.  Subnormal and
  overflowing magnitudes (below 2 to the -1022nd) are not modelled; they would
  require array lengths beyond the JS array-length limit of 2 to the 32nd, so
  for lengths beyond real JS limits the model behaves as if doubles had an
  unbounded exponent range.
-/

namespace BoardProgressbar

/-- A subtask: the `completed` flag the code reads and writes, plus an opaque
`payload` standing for every other field of the JS object. -/
structure Subtask where
  completed : Bool
  payload : String
deriving Repr, DecidableEq

/-- A task: identifier, category, optional subtask array (the code guards
`!task.subtasks`), and an opaque `payload` for all other fields. -/
structure Task where
  id : String
  category : String
  subtasks : Option (List Subtask)
  payload : String
deriving Repr, DecidableEq

/-- A JS value handed to the percentage functions: an array of subtasks, or an
arbitrary non-array value (tagged only for distinguishability; the code treats
all non-arrays identically via `Array.isArray`). -/
inductive JsValue where
  | arr (subtasks : List Subtask)
  | nonArrayValue (tag : String)
deriving Repr, DecidableEq

/-- A JS exception. -/
inductive JsError where
  | typeError (msg : String)
deriving Repr, DecidableEq

/-- Observable side effects, in program order.  DOM calls and the Firebase sync
helper are recorded as opaque call events with their arguments. -/
inductive Effect where
  | consoleWarn (msg : String)
  | consoleError (msg : String)
  | fetchPut (url : String) (body : List Subtask)
  | domProgressBar (taskId : String) (progressPercentage : Nat)
      (completed total : Option Nat)
  | domOverlay (category : String) (task : Task)
  | syncFirebase (taskId : String) (subtasks : List Subtask) (category : String)
deriving Repr, DecidableEq

/-- String rendering of a possibly-undefined JS number (template literals print
`undefined` for a missing argument). -/
def optShow : Option Nat → String
  | none => "undefined"
  | some n => toString n

/-- The JS comparison `total > 0` where `total` may be `undefined`
(`undefined > 0` is `false`). -/
def jsUndefinedGtZero : Option Nat → Bool
  | none => false
  | some n => decide (0 < n)

/-- `subtasks.filter(subtask => subtask.completed).length`. -/
def countCompleted (subtasks : List Subtask) : Nat :=
  (subtasks.filter (fun s => s.completed)).length

/-- Fueled binary logarithm: `log2Aux fuel n` is the floor of log2 of `n`
whenever `n ≤ fuel` and `1 ≤ n`.  Structural recursion on the fuel keeps it
directly computable by the kernel. -/
def log2Aux : Nat → Nat → Nat
  | 0, _ => 0
  | fuel + 1, n => if n < 2 then 0 else log2Aux fuel (n / 2) + 1

/-- Floor of log2 of a positive natural. -/
def natLog2 (n : Nat) : Nat := log2Aux n n

/-- Fueled ceiling binary logarithm: `clog2Aux fuel n` is the least `j` with
`n ≤ 2 ^ j`, whenever `n ≤ fuel` and `1 ≤ n`. -/
def clog2Aux : Nat → Nat → Nat
  | 0, _ => 0
  | fuel + 1, n => if n ≤ 1 then 0 else clog2Aux fuel ((n + 1) / 2) + 1

/-- Ceiling of log2 of a positive natural. -/
def natClog2 (n : Nat) : Nat := clog2Aux n n

/-- Floor of log2 of a positive rational: the unique `e` with
`2 ^ e ≤ q < 2 ^ (e + 1)`. -/
def floorLog2 (q : ℚ) : ℤ :=
  if 1 ≤ q then (natLog2 (Int.toNat ⌊q⌋) : ℤ)
  else -(natClog2 (Int.toNat ⌈1 / q⌉) : ℤ)

/-- Multiply a rational by an integer power of two, computably. -/
def mulPow2 (q : ℚ) (e : ℤ) : ℚ :=
  if 0 ≤ e then q * ((2 ^ e.toNat : ℕ) : ℚ) else q / ((2 ^ (-e).toNat : ℕ) : ℚ)

/-- Round a rational to the nearest integer, ties to even (the IEEE-754
default rounding applied to a scaled significand). -/
def rne (x : ℚ) : ℤ :=
  if x - ⌊x⌋ < 1 / 2 then ⌊x⌋
  else if 1 / 2 < x - ⌊x⌋ then ⌊x⌋ + 1
  else if ⌊x⌋ % 2 = 0 then ⌊x⌋ else ⌊x⌋ + 1

/-- The exact rational value of the IEEE-754 binary64 double nearest to `q`
(round to nearest, ties to even): the significand `q / 2 ^ e` is scaled into
`[2 ^ 52, 2 ^ 53)` and rounded to an integer.  Nonpositive inputs map to 0
(only 0 itself arises in this program); subnormal and overflowing exponents
are not clamped, see the header comment. -/
def roundDouble (q : ℚ) : ℚ :=
  if q ≤ 0 then 0
  else mulPow2 ((rne (mulPow2 q (52 - floorLog2 q)) : ℤ) : ℚ) (floorLog2 q - 52)

/-- JS division `a / b` of two exactly-representable naturals: the exact
quotient rounded to a double. -/
def jsDiv (a b : Nat) : ℚ := roundDouble ((a : ℚ) / (b : ℚ))

/-- JS multiplication of a double by an exactly-representable natural: the
exact product rounded to a double. -/
def jsMul (x : ℚ) (k : Nat) : ℚ := roundDouble (x * (k : ℚ))

/-- `Math.round` on the exact value of a double: the closest integer, ties
toward positive infinity. -/
def jsMathRound (x : ℚ) : ℤ := ⌊x + 1 / 2⌋

/-- `Math.round((completed / total) * 100)` in IEEE-754 binary64 arithmetic:
round the quotient to a double, round the product with 100 to a double, then
`Math.round`.  Meaningful for `total > 0`. -/
def jsRound100 (completed total : Nat) : Nat :=
  (jsMathRound (jsMul (jsDiv completed total) 100)).toNat

/-- The style string assigned to the fill width. -/
def widthStyle (progressPercentage : Nat) : String :=
  toString progressPercentage ++ "%"

/-- The subtask counter text `completed + "/" + total + " Subtasks"`. -/
def subtaskCounterText (completed total : Option Nat) : String :=
  optShow completed ++ "/" ++ optShow total ++ " Subtasks"

/-- The PUT URL built in `toggleSubtaskCompletion`. -/
def subtasksUrl (taskUrl category taskId : String) : String :=
  taskUrl ++ "/" ++ category ++ "/" ++ taskId ++ "/subtasks.json"

/-- The `console.error` message of `updateSubtaskState` for a missing index. -/
def subtaskNotFoundMsg (subtaskIndex : Nat) : String :=
  "Subtask with index " ++ toString subtaskIndex ++ " not found."

/-- The `console.error` message of the catch branch in
`toggleSubtaskCompletion`. -/
def saveFailedMsg (taskId : String) : String :=
  "Failed to save updated subtasks for Task ID " ++ taskId ++ ":"

/-- `calculateProgress` (lines 6-15): warns and returns 0 on a non-array,
otherwise `total === 0 ? 0 : Math.round((completed / total) * 100)`. -/
def calculateProgress : JsValue → Nat × List Effect
  | JsValue.nonArrayValue _ =>
      (0, [Effect.consoleWarn "Invalid subtasks array. Returning 0 progress."])
  | JsValue.arr subtasks =>
      (if subtasks.length = 0 then 0
       else jsRound100 (countCompleted subtasks) subtasks.length, [])

/-- `calculateProgressPercentage` (lines 133-136): no array guard, so a
non-array input throws (`subtasks.filter` is not a function); on an array it
computes exactly the same expression as `calculateProgress`. -/
def calculateProgressPercentage : JsValue → Except JsError Nat
  | JsValue.nonArrayValue _ =>
      Except.error (JsError.typeError "subtasks.filter is not a function")
  | JsValue.arr subtasks =>
      Except.ok (if subtasks.length = 0 then 0
                 else jsRound100 (countCompleted subtasks) subtasks.length)

/-- The in-place flip `subtask.completed = !subtask.completed`. -/
def flipCompleted (s : Subtask) : Subtask :=
  { s with completed := !s.completed }

/-- `progressBarfilling` (lines 77-80) as its two collaborator call events:
the effective `updateProgressBar(taskId, pct, completed, total)` and
`updateOverlayIfVisible(category, task)`. -/
def progressBarfilling (taskId category : String)
    (progressPercentage completed total : Nat) (task : Task) : List Effect :=
  [Effect.domProgressBar taskId progressPercentage (some completed) (some total),
   Effect.domOverlay category task]

/-- `toggleSubtaskCompletion` (lines 44-65).  `lookup` is the result of the
external `findTaskInData(taskId)`; `taskUrl` is the ambient `TASK_URL`;
`fetchOk` is whether the awaited PUT succeeds.  Line 48 dereferences
`task.subtasks[subtaskIndex]` with no bounds check, so an out-of-range index
throws a TypeError (the async function rejects) before the try block; nothing
is logged and the fetch is never issued in that case. -/
def toggleSubtaskCompletion (taskUrl taskId : String) (lookup : Option Task)
    (fetchOk : Bool) (subtaskIndex : Nat) :
    Except JsError (Option Task × List Effect) :=
  match lookup with
  | none => Except.ok (none, [])
  | some task =>
    match task.subtasks with
    | none => Except.ok (some task, [])
    | some subs =>
      if h : subtaskIndex < subs.length then
        let subs2 := subs.set subtaskIndex (flipCompleted (subs.get ⟨subtaskIndex, h⟩))
        let task2 : Task := { task with subtasks := some subs2 }
        if fetchOk then
          Except.ok (some task2,
            Effect.fetchPut (subtasksUrl taskUrl task.category taskId) subs2 ::
              progressBarfilling taskId task.category
                (if subs2.length = 0 then 0
                 else jsRound100 (countCompleted subs2) subs2.length)
                (countCompleted subs2) subs2.length task2)
        else
          Except.ok (some task2,
            [Effect.fetchPut (subtasksUrl taskUrl task.category taskId) subs2,
             Effect.consoleError (saveFailedMsg taskId)])
      else
        Except.error
          (JsError.typeError "cannot read properties of undefined (reading completed)")

/-- The DOM region the effective `updateProgressBar` touches: presence flags
for the container, the fill element and the counter span, plus the style and
text slots the function writes. -/
structure IndicatorDom where
  containerPresent : Bool
  display : String
  fillPresent : Bool
  fillWidth : String
  fillColor : String
  spanPresent : Bool
  spanText : String
deriving Repr, DecidableEq

/-- Lines 96-101: query `.progress-bar-fill` and, if present, set its width and
color. -/
def progressBarFillUpdate (dom : IndicatorDom) (progressPercentage : Nat) :
    IndicatorDom :=
  if dom.fillPresent then
    { dom with
      fillWidth := widthStyle progressPercentage,
      fillColor := if progressPercentage = 0 then "lightgray" else "blue" }
  else dom

/-- Lines 103-106: query the counter span and, if present, set its text. -/
def subtaskCounterUpdate (dom : IndicatorDom) (completed total : Option Nat) :
    IndicatorDom :=
  if dom.spanPresent then
    { dom with spanText := subtaskCounterText completed total }
  else dom

/-- The effective `updateProgressBar` (lines 89-110).  The earlier declaration
at lines 23-36 shares its name and is shadowed by this one (in JS the later
function declaration wins), so this is the behavior of every call in the file.
`completed` and `total` are optional because `updateSubtaskProgress` calls it
with only two arguments, leaving both `undefined`. -/
def updateProgressBar (dom : IndicatorDom) (progressPercentage : Nat)
    (completed total : Option Nat) : IndicatorDom :=
  if dom.containerPresent then
    if jsUndefinedGtZero total then
      subtaskCounterUpdate
        (progressBarFillUpdate { dom with display := "block" } progressPercentage)
        completed total
    else
      { dom with containerPresent := false }
  else dom

/-- `updateSubtaskProgress` (lines 161-165) as its effect trace: any logs of
`calculateProgress`, the two-argument `updateProgressBar` call (so `completed`
and `total` are `undefined` there), and the `syncSubtasksWithFirebase` call. -/
def updateSubtaskProgress (taskId : String) (subtasks : List Subtask)
    (category : String) : List Effect :=
  (calculateProgress (JsValue.arr subtasks)).2 ++
    [Effect.domProgressBar taskId (calculateProgress (JsValue.arr subtasks)).1
       none none,
     Effect.syncFirebase taskId subtasks category]

/-- `updateSubtaskState` (lines 144-152): `task.subtasks || []`, a guarded
bounds check that logs and returns on a missing index, otherwise the in-place
flip followed by `updateSubtaskProgress`. -/
def updateSubtaskState (task : Task) (subtaskIndex : Nat) :
    Task × List Effect :=
  let subs := task.subtasks.getD []
  if h : subtaskIndex < subs.length then
    let subs2 := subs.set subtaskIndex (flipCompleted (subs.get ⟨subtaskIndex, h⟩))
    ({ task with subtasks := some subs2 },
     updateSubtaskProgress task.id subs2 task.category)
  else
    (task, [Effect.consoleError (subtaskNotFoundMsg subtaskIndex)])

/-- The persistence calls (remote writes) contained in an effect trace, with
their payloads, in order. -/
def persistPayloads : List Effect → List (List Subtask)
  | [] => []
  | Effect.fetchPut _ body :: es => body :: persistPayloads es
  | Effect.syncFirebase _ subtasks _ :: es => subtasks :: persistPayloads es
  | _ :: es => persistPayloads es

/-- The resulting task state of a toggle that did not throw (`none` if it
threw or no task was found). -/
def toggleResultTask : Except JsError (Option Task × List Effect) → Option Task
  | Except.ok (t, _) => t
  | Except.error _ => none

/-- The effect trace of a toggle that did not throw. -/
def toggleResultEffects :
    Except JsError (Option Task × List Effect) → List Effect
  | Except.ok (_, effects) => effects
  | Except.error _ => []

/-- Specification-side rounding: round-half-up of a rational,
`floor(q + 1/2)`. -/
def specRoundHalfUp (q : ℚ) : ℤ :=
  ⌊q + 1 / 2⌋

/-- Specification-side percentage, written from the words of the spec: 0 for
the empty sequence, otherwise round-half-up of
`100 * (number of completed subtasks) / (number of subtasks)`. -/
def specPercentage (subtasks : List Subtask) : ℤ :=
  if subtasks.length = 0 then 0
  else specRoundHalfUp
    (100 * (List.countP (fun s => s.completed) subtasks : ℚ) /
      (subtasks.length : ℚ))

/-- Concrete two-element subtask list used as a sample input. -/
def twoIncomplete : List Subtask :=
  [Subtask.mk false "a", Subtask.mk false "b"]

/-- Concrete sample task holding `twoIncomplete`. -/
def sampleTask : Task :=
  Task.mk "t1" "toDo" (some twoIncomplete) "extra"

/-- Concrete sample DOM with container, fill and span all present. -/
def sampleDom : IndicatorDom :=
  IndicatorDom.mk true "" true "" "" true ""

/-- Concrete 40-element subtask list with 23 completed subtasks: an input on
which double arithmetic deviates from exact round-half-up. -/
def sample40 : List Subtask :=
  List.replicate 23 (Subtask.mk true "done") ++
    List.replicate 17 (Subtask.mk false "open")

lemma log2Aux_spec (fuel : Nat) :
    ∀ n, 1 ≤ n → n ≤ fuel → 2 ^ log2Aux fuel n ≤ n ∧ n < 2 ^ (log2Aux fuel n + 1) := by
  induction fuel with
  | zero => intro n h1 h2; omega
  | succ fuel ih =>
    intro n h1 h2
    by_cases hn : n < 2
    · simp only [log2Aux, if_pos hn]
      omega
    · have hrec := ih (n / 2) (by omega) (by omega)
      simp only [log2Aux, if_neg hn]
      obtain ⟨hA, hB⟩ := hrec
      rw [pow_succ, pow_succ]
      rw [pow_succ] at hB
      omega

lemma natLog2_spec (n : Nat) (h : 1 ≤ n) :
    2 ^ natLog2 n ≤ n ∧ n < 2 ^ (natLog2 n + 1) :=
  log2Aux_spec n n h le_rfl

lemma clog2Aux_one (fuel : Nat) : clog2Aux fuel 1 = 0 := by
  cases fuel <;> simp [clog2Aux]

lemma clog2Aux_spec (fuel : Nat) :
    ∀ n, 1 ≤ n → n ≤ fuel →
      n ≤ 2 ^ clog2Aux fuel n ∧
      (2 ≤ n → 2 ^ (clog2Aux fuel n - 1) < n ∧ 1 ≤ clog2Aux fuel n) := by
  induction fuel with
  | zero => intro n h1 h2; omega
  | succ fuel ih =>
    intro n h1 h2
    by_cases hn : n ≤ 1
    · simp only [clog2Aux, if_pos hn]
      omega
    · simp only [clog2Aux, if_neg hn]
      by_cases hm : (n + 1) / 2 = 1
      · rw [hm, clog2Aux_one]
        constructor
        · simp
          omega
        · intro h2n
          constructor
          · simp
            omega
          · omega
      · have hrec := ih ((n + 1) / 2) (by omega) (by omega)
        obtain ⟨hA, hB⟩ := hrec
        obtain ⟨hC, hD⟩ := hB (by omega)
        obtain ⟨j, hj⟩ : ∃ j, clog2Aux fuel ((n + 1) / 2) = j + 1 :=
          ⟨clog2Aux fuel ((n + 1) / 2) - 1, by omega⟩
        rw [hj] at hA hC ⊢
        constructor
        · rw [pow_succ, pow_succ]
          rw [pow_succ] at hA
          omega
        · intro _
          constructor
          · simp only [Nat.add_sub_cancel] at hC ⊢
            rw [pow_succ]
            omega
          · omega

lemma natClog2_spec (n : Nat) (h : 2 ≤ n) :
    n ≤ 2 ^ natClog2 n ∧ 2 ^ (natClog2 n - 1) < n ∧ 1 ≤ natClog2 n := by
  have hs := clog2Aux_spec n n (by omega) le_rfl
  exact ⟨hs.1, (hs.2 h).1, (hs.2 h).2⟩

lemma mulPow2_eq (q : ℚ) (e : ℤ) : mulPow2 q e = q * (2 : ℚ) ^ e := by
  unfold mulPow2
  split_ifs with h
  · have hcast : ((2 ^ e.toNat : ℕ) : ℚ) = (2 : ℚ) ^ e := by
      push_cast
      rw [← zpow_natCast]
      congr 1
      omega
    rw [hcast]
  · have hcast : ((2 ^ (-e).toNat : ℕ) : ℚ) = (2 : ℚ) ^ (-e) := by
      push_cast
      rw [← zpow_natCast]
      congr 1
      omega
    rw [hcast, div_eq_mul_inv, ← zpow_neg, neg_neg]

lemma pow_natCast_q (k : Nat) : ((2 ^ k : ℕ) : ℚ) = (2 : ℚ) ^ (k : ℤ) := by
  push_cast
  rw [← zpow_natCast]

lemma floorLog2_spec (q : ℚ) (hq : 0 < q) :
    (2 : ℚ) ^ floorLog2 q ≤ q ∧ q < (2 : ℚ) ^ (floorLog2 q + 1) := by
  unfold floorLog2
  split_ifs with h1
  · set n : Nat := Int.toNat ⌊q⌋ with hn
    have hfl : 1 ≤ ⌊q⌋ := Int.le_floor.mpr (by exact_mod_cast h1)
    have hn1 : 1 ≤ n := by omega
    obtain ⟨hA, hB⟩ := natLog2_spec n hn1
    have hnq : (n : ℚ) ≤ q := by
      have hcast : ((n : ℤ) : ℚ) ≤ q := by
        rw [hn, Int.toNat_of_nonneg (by omega)]
        exact Int.floor_le q
      exact_mod_cast hcast
    have hqn : q < (n : ℚ) + 1 := by
      have hcast : q < ((n : ℤ) : ℚ) + 1 := by
        rw [hn, Int.toNat_of_nonneg (by omega)]
        exact Int.lt_floor_add_one q
      exact_mod_cast hcast
    constructor
    · rw [← pow_natCast_q]
      calc ((2 ^ natLog2 n : ℕ) : ℚ) ≤ (n : ℚ) := by exact_mod_cast hA
        _ ≤ q := hnq
    · rw [show (natLog2 n : ℤ) + 1 = ((natLog2 n + 1 : ℕ) : ℤ) by push_cast; ring,
        ← pow_natCast_q]
      calc q < (n : ℚ) + 1 := hqn
        _ ≤ ((2 ^ (natLog2 n + 1) : ℕ) : ℚ) := by exact_mod_cast hB
  · push_neg at h1
    have hr : 1 < 1 / q := by
      rw [lt_div_iff₀ hq]
      linarith
    set n : Nat := Int.toNat ⌈1 / q⌉ with hn
    have hcl : 2 ≤ ⌈1 / q⌉ := by
      have hlt : (1 : ℤ) < ⌈1 / q⌉ := Int.lt_ceil.mpr (by exact_mod_cast hr)
      omega
    have hn2 : 2 ≤ n := by omega
    obtain ⟨hA, hB, hj1⟩ := natClog2_spec n hn2
    set j : Nat := natClog2 n with hjdef
    have hrn : 1 / q ≤ (n : ℚ) := by
      have hcast : 1 / q ≤ ((n : ℤ) : ℚ) := by
        rw [hn, Int.toNat_of_nonneg (by omega)]
        exact Int.le_ceil (1 / q)
      exact_mod_cast hcast
    have hnr : (n : ℚ) - 1 < 1 / q := by
      have hcast : ((n : ℤ) : ℚ) < 1 / q + 1 := by
        rw [hn, Int.toNat_of_nonneg (by omega)]
        exact Int.ceil_lt_add_one (1 / q)
      push_cast at hcast ⊢
      linarith
    have hpowj : (0 : ℚ) < (2 : ℚ) ^ (j : ℤ) := zpow_pos (by norm_num) _
    constructor
    · rw [zpow_neg]
      rw [inv_le_iff_one_le_mul₀ hpowj]
      have h2j : 1 / q ≤ (2 : ℚ) ^ (j : ℤ) := by
        rw [← pow_natCast_q]
        calc 1 / q ≤ (n : ℚ) := hrn
          _ ≤ ((2 ^ j : ℕ) : ℚ) := by exact_mod_cast hA
      rw [div_le_iff₀ hq] at h2j
      linarith [mul_comm q ((2 : ℚ) ^ (j : ℤ))]
    · have hkey : (2 : ℚ) ^ ((j : ℤ) - 1) < 1 / q := by
        rw [show (j : ℤ) - 1 = ((j - 1 : ℕ) : ℤ) by omega, ← pow_natCast_q]
        have hstep : ((2 ^ (j - 1) : ℕ) : ℚ) ≤ (n : ℚ) - 1 := by
          have h9 : (2 ^ (j - 1) : ℕ) ≤ n - 1 := by omega
          calc ((2 ^ (j - 1) : ℕ) : ℚ) ≤ ((n - 1 : ℕ) : ℚ) := by exact_mod_cast h9
            _ = (n : ℚ) - 1 := by
                rw [Nat.cast_sub (by omega : 1 ≤ n)]
                norm_num
        linarith
      have hq1 : q * (2 : ℚ) ^ ((j : ℤ) - 1) < 1 := by
        rw [lt_div_iff₀ hq] at hkey
        linarith [mul_comm q ((2 : ℚ) ^ ((j : ℤ) - 1))]
      have hsplit : (1 : ℚ) = (2 : ℚ) ^ (-(j : ℤ) + 1) * (2 : ℚ) ^ ((j : ℤ) - 1) := by
        rw [← zpow_add₀ (by norm_num : (2 : ℚ) ≠ 0)]
        norm_num
      have hpow : (0 : ℚ) < (2 : ℚ) ^ ((j : ℤ) - 1) := zpow_pos (by norm_num) _
      nlinarith [hq1, hsplit, hpow]

lemma rne_abs_le (x : ℚ) : |((rne x : ℤ) : ℚ) - x| ≤ 1 / 2 := by
  have h1 : ((⌊x⌋ : ℤ) : ℚ) ≤ x := Int.floor_le x
  have h2 : x < ((⌊x⌋ : ℤ) : ℚ) + 1 := Int.lt_floor_add_one x
  unfold rne
  split_ifs with ha hb hc <;> rw [abs_le] <;> constructor <;> push_cast <;> linarith

lemma roundDouble_abs_err (q : ℚ) (hq : 0 < q) :
    |roundDouble q - q| ≤ q * (2 : ℚ) ^ (-53 : ℤ) := by
  obtain ⟨hL, _⟩ := floorLog2_spec q hq
  unfold roundDouble
  rw [if_neg (by linarith), mulPow2_eq, mulPow2_eq]
  set L : ℤ := floorLog2 q with hLdef
  set y : ℚ := q * (2 : ℚ) ^ (52 - L) with hy
  have h2 : (2 : ℚ) ≠ 0 := by norm_num
  have hqy : q = y * (2 : ℚ) ^ (L - 52) := by
    rw [hy, mul_assoc, ← zpow_add₀ h2]
    norm_num
  have herr := rne_abs_le y
  have hpow : (0 : ℚ) < (2 : ℚ) ^ (L - 52) := zpow_pos (by norm_num) _
  have hsplit : (2 : ℚ) ^ (L - 52) * (2 : ℚ) ^ (-(1) : ℤ) = (2 : ℚ) ^ (L - 53) := by
    rw [← zpow_add₀ h2]
    ring_nf
  have hhalf : (2 : ℚ) ^ (-(1) : ℤ) = 1 / 2 := by norm_num
  calc |((rne y : ℤ) : ℚ) * (2 : ℚ) ^ (L - 52) - q|
      = |((rne y : ℤ) : ℚ) - y| * (2 : ℚ) ^ (L - 52) := by
        rw [hqy, ← sub_mul, abs_mul, abs_of_pos hpow]
    _ ≤ (1 / 2) * (2 : ℚ) ^ (L - 52) :=
        mul_le_mul_of_nonneg_right herr (le_of_lt hpow)
    _ = (2 : ℚ) ^ (L - 53) := by rw [← hhalf, mul_comm, hsplit]
    _ = (2 : ℚ) ^ L * (2 : ℚ) ^ (-53 : ℤ) := by
        rw [← zpow_add₀ h2]
        ring_nf
    _ ≤ q * (2 : ℚ) ^ (-53 : ℤ) :=
        mul_le_mul_of_nonneg_right hL (le_of_lt (zpow_pos (by norm_num) _))

lemma eps_eq : (2 : ℚ) ^ (-53 : ℤ) = 1 / 9007199254740992 := by
  rw [show (-53 : ℤ) = -((53 : ℕ) : ℤ) by norm_num, zpow_neg, zpow_natCast]
  norm_num

lemma roundDouble_zero : roundDouble 0 = 0 := by
  unfold roundDouble
  norm_num

lemma roundDouble_bounds (q : ℚ) (hq : 0 < q) :
    q * (1 - (2 : ℚ) ^ (-53 : ℤ)) ≤ roundDouble q ∧
    roundDouble q ≤ q * (1 + (2 : ℚ) ^ (-53 : ℤ)) := by
  have h := roundDouble_abs_err q hq
  rw [abs_le] at h
  constructor <;> nlinarith [h.1, h.2]

lemma abs_floor_sub_le (a b : ℚ) (h : |a - b| ≤ 1) : |⌊a⌋ - ⌊b⌋| ≤ 1 := by
  rw [abs_le] at h
  have hA : ⌊a⌋ ≤ ⌊b⌋ + 1 := by
    have hab : a ≤ b + 1 := by linarith [h.2]
    calc ⌊a⌋ ≤ ⌊b + 1⌋ := Int.floor_le_floor hab
      _ = ⌊b⌋ + 1 := by
          rw [show b + 1 = b + ((1 : ℤ) : ℚ) by norm_num, Int.floor_add_int]
  have hB : ⌊b⌋ ≤ ⌊a⌋ + 1 := by
    have hba : b ≤ a + 1 := by linarith [h.1]
    calc ⌊b⌋ ≤ ⌊a + 1⌋ := Int.floor_le_floor hba
      _ = ⌊a⌋ + 1 := by
          rw [show a + 1 = a + ((1 : ℤ) : ℚ) by norm_num, Int.floor_add_int]
  rw [abs_le]
  omega

lemma jsRound100_close (c t : Nat) (ht : 0 < t) (hc : c ≤ t) :
    jsRound100 c t ≤ 100 ∧
    |((jsRound100 c t : ℕ) : ℤ) - ⌊100 * (c : ℚ) / (t : ℚ) + 1 / 2⌋| ≤ 1 := by
  by_cases hc0 : c = 0
  · subst hc0
    have hd : jsDiv 0 t = 0 := by
      unfold jsDiv
      rw [Nat.cast_zero, zero_div, roundDouble_zero]
    have hm : jsMul 0 100 = 0 := by
      unfold jsMul
      rw [zero_mul, roundDouble_zero]
    have hfl : (⌊(0 : ℚ) + 1 / 2⌋ : ℤ) = 0 := by
      rw [zero_add]
      exact Int.floor_eq_iff.mpr (by norm_num)
    have hjs : jsRound100 0 t = 0 := by
      unfold jsRound100 jsMathRound
      rw [hd, hm, hfl]
      rfl
    have hflA : (⌊100 * ((0 : ℕ) : ℚ) / (t : ℚ) + 1 / 2⌋ : ℤ) = 0 := by
      rw [show 100 * ((0 : ℕ) : ℚ) / (t : ℚ) + 1 / 2 = (0 : ℚ) + 1 / 2 by
        push_cast
        ring]
      exact hfl
    rw [hjs, hflA]
    norm_num
  · have htQ : (0 : ℚ) < (t : ℚ) := by exact_mod_cast ht
    have hx0 : (0 : ℚ) < (c : ℚ) / (t : ℚ) := by
      apply div_pos _ htQ
      exact_mod_cast Nat.pos_of_ne_zero hc0
    have hx1 : (c : ℚ) / (t : ℚ) ≤ 1 := by
      rw [div_le_one htQ]
      exact_mod_cast hc
    set x : ℚ := (c : ℚ) / (t : ℚ) with hxdef
    obtain ⟨hd1, hd2⟩ := roundDouble_bounds x hx0
    rw [eps_eq] at hd1 hd2
    set d : ℚ := roundDouble x with hddef
    have hd0 : 0 < d := by nlinarith
    obtain ⟨hm1, hm2⟩ := roundDouble_bounds (d * ((100 : ℕ) : ℚ)) (by positivity)
    rw [eps_eq] at hm1 hm2
    set m : ℚ := roundDouble (d * ((100 : ℕ) : ℚ)) with hmdef
    have hcast100 : ((100 : ℕ) : ℚ) = 100 := by norm_num
    rw [hcast100] at hm1 hm2
    have hm0 : 0 ≤ m := by nlinarith
    have hclose : |m - 100 * x| ≤ 1 := by
      rw [abs_le]
      constructor <;> nlinarith
    have hub : m + 1 / 2 < 101 := by nlinarith
    have hjs : jsRound100 c t = (⌊m + 1 / 2⌋).toNat := by
      unfold jsRound100 jsMathRound jsMul jsDiv
      rfl
    have hfl0 : 0 ≤ ⌊m + 1 / 2⌋ := Int.floor_nonneg.mpr (by linarith)
    have hfl101 : ⌊m + 1 / 2⌋ < 101 := Int.floor_lt.mpr (by exact_mod_cast hub)
    constructor
    · rw [hjs]
      omega
    · rw [hjs, Int.toNat_of_nonneg hfl0]
      have habs : |(m + 1 / 2) - (100 * x + 1 / 2)| ≤ 1 := by
        rw [show (m + 1 / 2) - (100 * x + 1 / 2) = m - 100 * x by ring]
        exact hclose
      have hff := abs_floor_sub_le (m + 1 / 2) (100 * x + 1 / 2) habs
      rw [show 100 * (c : ℚ) / (t : ℚ) + 1 / 2 = 100 * x + 1 / 2 by
        rw [hxdef]
        ring]
      exact hff

lemma list_set_get_self {α : Type} (l : List α) (i : Nat) (h : i < l.length) :
    l.set i (l.get ⟨i, h⟩) = l := by
  apply List.ext_getElem
  · simp
  · intro n h1 h2
    by_cases hn : i = n
    · subst hn
      simp
    · rw [List.getElem_set_ne hn]

unseal Rat.add Rat.mul Rat.inv Rat.sub in
/-- C1 counterexample: on a 40-element subtask array with 23 completed, the
double evaluation of (23 / 40) * 100 is strictly below 57.5, so
`calculateProgress` returns 57 while exact round-half-up of
`100 * 23 / 40 = 57.5` is 58 — refuting the claimed equality with
round-half-up semantics (matching what real JS returns on this input). -/
theorem calculateProgress_deviates_from_roundHalfUp :
    (calculateProgress (JsValue.arr sample40)).1 = 57 ∧
    specPercentage sample40 = 58 ∧
    ((calculateProgress (JsValue.arr sample40)).1 : ℤ) ≠ specPercentage sample40 := by
  refine ⟨by decide, by decide, by decide⟩

/-- C1 (amended): for every valid (array) subtask sequence, `calculateProgress`
returns an integer in `[0, 100]`, returns 0 on the empty sequence, and its
result — `Math.round((completed / total) * 100)` in IEEE-754 double
arithmetic — differs from exact round-half-up of `100 * completed / total` by
at most 1 (it can genuinely differ: see the counterexample at 23 of 40). -/
theorem calculateProgress_within_one_of_roundHalfUp (xs : List Subtask) :
    (calculateProgress (JsValue.arr xs)).1 ≤ 100 ∧
    |((calculateProgress (JsValue.arr xs)).1 : ℤ) - specPercentage xs| ≤ 1 ∧
    (calculateProgress (JsValue.arr [])).1 = 0 := by
  refine ⟨?_, ?_, rfl⟩
  · by_cases h : xs.length = 0
    · simp [calculateProgress, h]
    · have ht : 0 < xs.length := Nat.pos_of_ne_zero h
      simp only [calculateProgress, if_neg h]
      exact (jsRound100_close _ _ ht (List.length_filter_le _ _)).1
  · by_cases h : xs.length = 0
    · simp [calculateProgress, specPercentage, h]
    · have ht : 0 < xs.length := Nat.pos_of_ne_zero h
      simp only [calculateProgress, specPercentage, specRoundHalfUp, if_neg h]
      rw [List.countP_eq_length_filter]
      exact (jsRound100_close _ _ ht (List.length_filter_le _ _)).2

/-- C4: `calculateProgress` on any non-array input logs exactly the warning
and returns 0 without throwing, and on the empty array returns 0 with no
logging. -/
theorem calculateProgress_invalid_and_empty (tag : String) :
    calculateProgress (JsValue.nonArrayValue tag) =
      (0, [Effect.consoleWarn "Invalid subtasks array. Returning 0 progress."]) ∧
    calculateProgress (JsValue.arr []) = (0, []) :=
  ⟨rfl, rfl⟩

/-- C9: on every array input the two percentage implementations agree:
`calculateProgressPercentage` returns exactly the value computed by
`calculateProgress`. -/
theorem calculateProgressPercentage_eq_calculateProgress (xs : List Subtask) :
    calculateProgressPercentage (JsValue.arr xs) =
      Except.ok (calculateProgress (JsValue.arr xs)).1 :=
  rfl

/-- C2: divergence between the two toggle implementations on an out-of-range
index (index 5 of a 2-element subtask array).  `toggleSubtaskCompletion`
throws a TypeError from the unguarded dereference on line 48 — no mutation and
no persistence call, but also no error report and the exception escapes as a
promise rejection — while `updateSubtaskState` behaves as the claim states:
unchanged task, a single `console.error`, and in particular no persistence
call in its effect trace. -/
theorem toggle_outOfRange_divergence :
    toggleSubtaskCompletion "URL" "t1" (some sampleTask) true 5 =
      Except.error
        (JsError.typeError
          "cannot read properties of undefined (reading completed)") ∧
    updateSubtaskState sampleTask 5 =
      (sampleTask, [Effect.consoleError (subtaskNotFoundMsg 5)]) ∧
    persistPayloads (updateSubtaskState sampleTask 5).2 = [] :=
  ⟨rfl, rfl, rfl⟩

/-- C3: the claim that no aggregator operation ever throws fails on the code:
`calculateProgressPercentage` applied to a non-array input propagates a
TypeError to its caller instead of logging and returning 0 (and the toggle
flow of `toggleSubtaskCompletion` likewise throws on an out-of-range index,
see the C2 theorem). -/
theorem calculateProgressPercentage_nonArray_throws :
    calculateProgressPercentage (JsValue.nonArrayValue "null") =
      Except.error (JsError.typeError "subtasks.filter is not a function") :=
  rfl

/-- C7: toggling index 1 of a two-element all-incomplete subtask array yields
the array with only the second element completed, and both toggle paths issue
exactly one persistence call whose payload is exactly that resulting array. -/
theorem toggle_index1_example :
    (updateSubtaskState sampleTask 1).1.subtasks =
      some [Subtask.mk false "a", Subtask.mk true "b"] ∧
    persistPayloads (updateSubtaskState sampleTask 1).2 =
      [[Subtask.mk false "a", Subtask.mk true "b"]] ∧
    toggleResultTask (toggleSubtaskCompletion "URL" "t1" (some sampleTask) true 1) =
      some (Task.mk "t1" "toDo"
        (some [Subtask.mk false "a", Subtask.mk true "b"]) "extra") ∧
    persistPayloads
        (toggleResultEffects
          (toggleSubtaskCompletion "URL" "t1" (some sampleTask) true 1)) =
      [[Subtask.mk false "a", Subtask.mk true "b"]] :=
  ⟨rfl, rfl, rfl, rfl⟩

/-- C5: when the persistence PUT fails, `toggleSubtaskCompletion` still
returns normally (no exception): the flipped subtask stays in the returned
task state (not rolled back), the PUT was issued, and the failure is reported
via `console.error`. -/
theorem toggle_persistFailure_keepsMutation (taskUrl taskId : String)
    (task : Task) (subs : List Subtask) (i : Nat)
    (hs : task.subtasks = some subs) (hi : i < subs.length) :
    toggleSubtaskCompletion taskUrl taskId (some task) false i =
      Except.ok
        (some { task with
                  subtasks := some (subs.set i (flipCompleted (subs.get ⟨i, hi⟩))) },
         [Effect.fetchPut (subtasksUrl taskUrl task.category taskId)
            (subs.set i (flipCompleted (subs.get ⟨i, hi⟩))),
          Effect.consoleError (saveFailedMsg taskId)]) := by
  obtain ⟨tid, tcat, tsubs, tpay⟩ := task
  change tsubs = some subs at hs
  subst hs
  simp only [toggleSubtaskCompletion]
  rw [dif_pos hi]
  simp

/-- C5 witness: the persistence-failure theorem instantiated at the sample
task and index 1. -/
theorem toggle_persistFailure_keepsMutation_check :
    toggleSubtaskCompletion "URL" "t1" (some sampleTask) false 1 =
      Except.ok
        (some (Task.mk "t1" "toDo"
          (some [Subtask.mk false "a", Subtask.mk true "b"]) "extra"),
         [Effect.fetchPut "URL/toDo/t1/subtasks.json"
            [Subtask.mk false "a", Subtask.mk true "b"],
          Effect.consoleError
            "Failed to save updated subtasks for Task ID t1:"]) :=
  toggle_persistFailure_keepsMutation "URL" "t1" sampleTask twoIncomplete 1
    rfl (by decide)

/-- C6: for the effective `updateProgressBar`, when the container is present a
call with `total = 0` removes the container (and changes nothing else), while
a call with `total > 0` keeps the container, shows it (`display = block`),
sets the proportional fill width when the fill element is present, and sets
the `completed/total Subtasks` label when the counter span is present. -/
theorem updateProgressBar_zeroTotal_removes_positive_renders
    (dom : IndicatorDom) (progressPercentage completed n : Nat)
    (hc : dom.containerPresent = true) (hn : 0 < n) :
    updateProgressBar dom progressPercentage (some completed) (some 0) =
      { dom with containerPresent := false } ∧
    (updateProgressBar dom progressPercentage (some completed)
        (some n)).containerPresent = true ∧
    (updateProgressBar dom progressPercentage (some completed)
        (some n)).display = "block" ∧
    (dom.fillPresent = true →
      (updateProgressBar dom progressPercentage (some completed)
          (some n)).fillWidth = widthStyle progressPercentage) ∧
    (dom.spanPresent = true →
      (updateProgressBar dom progressPercentage (some completed)
          (some n)).spanText = subtaskCounterText (some completed) (some n)) := by
  obtain ⟨cp, di, fp, fw, fc, sp, st⟩ := dom
  change cp = true at hc
  subst hc
  refine ⟨?_, ?_, ?_, ?_, ?_⟩ <;>
    simp only [updateProgressBar, progressBarFillUpdate, subtaskCounterUpdate,
      jsUndefinedGtZero] <;>
    cases fp <;> cases sp <;> simp [hn]

/-- C6 witness: the indicator theorem instantiated at the sample DOM with
percentage 50, 1 of 2 subtasks completed. -/
theorem updateProgressBar_zeroTotal_removes_positive_renders_check :
    updateProgressBar sampleDom 50 (some 1) (some 0) =
      { sampleDom with containerPresent := false } ∧
    (updateProgressBar sampleDom 50 (some 1) (some 2)).spanText =
      subtaskCounterText (some 1) (some 2) :=
  ⟨(updateProgressBar_zeroTotal_removes_positive_renders sampleDom 50 1 2 rfl
      (by decide)).1,
   (updateProgressBar_zeroTotal_removes_positive_renders sampleDom 50 1 2 rfl
      (by decide)).2.2.2.2 rfl⟩

/-- C8: for every in-range index, `updateSubtaskState` changes only the
`completed` field of the subtask at that index: the task identifier, category
and other task fields are unchanged, the sequence keeps its length, every
other position is unchanged, and at the toggled position the opaque payload is
kept while `completed` is negated. -/
theorem updateSubtaskState_frame (task : Task) (subs : List Subtask) (i : Nat)
    (hs : task.subtasks = some subs) (hi : i < subs.length) :
    (updateSubtaskState task i).1.id = task.id ∧
    (updateSubtaskState task i).1.category = task.category ∧
    (updateSubtaskState task i).1.payload = task.payload ∧
    (updateSubtaskState task i).1.subtasks =
      some (subs.set i (flipCompleted (subs.get ⟨i, hi⟩))) ∧
    (subs.set i (flipCompleted (subs.get ⟨i, hi⟩))).length = subs.length ∧
    (∀ j, j ≠ i → (subs.set i (flipCompleted (subs.get ⟨i, hi⟩)))[j]? = subs[j]?) ∧
    (subs.set i (flipCompleted (subs.get ⟨i, hi⟩)))[i]? =
      some (Subtask.mk (!(subs.get ⟨i, hi⟩).completed) (subs.get ⟨i, hi⟩).payload) := by
  obtain ⟨tid, tcat, tsubs, tpay⟩ := task
  change tsubs = some subs at hs
  subst hs
  have hstate : updateSubtaskState (Task.mk tid tcat (some subs) tpay) i =
      (Task.mk tid tcat (some (subs.set i (flipCompleted (subs.get ⟨i, hi⟩)))) tpay,
       updateSubtaskProgress tid (subs.set i (flipCompleted (subs.get ⟨i, hi⟩))) tcat) := by
    simp only [updateSubtaskState, Option.getD_some]
    rw [dif_pos hi]
  rw [hstate]
  refine ⟨rfl, rfl, rfl, rfl, by simp, ?_, ?_⟩
  · intro j hj
    exact List.getElem?_set_ne (Ne.symm hj)
  · rw [List.getElem?_set_self (by exact hi)]
    rfl

/-- C8 witness: the frame theorem instantiated at the sample task and
index 1. -/
theorem updateSubtaskState_frame_check :
    (updateSubtaskState sampleTask 1).1.id = "t1" ∧
    (updateSubtaskState sampleTask 1).1.category = "toDo" ∧
    (updateSubtaskState sampleTask 1).1.payload = "extra" ∧
    (updateSubtaskState sampleTask 1).1.subtasks =
      some [Subtask.mk false "a", Subtask.mk true "b"] := by
  have h := updateSubtaskState_frame sampleTask twoIncomplete 1 rfl (by decide)
  exact ⟨h.1, h.2.1, h.2.2.1, h.2.2.2.1⟩

/-- C10: toggling the same in-range index twice with `updateSubtaskState`
restores the task (and hence its subtask sequence) to its original state. -/
theorem updateSubtaskState_involutive (task : Task) (subs : List Subtask)
    (i : Nat) (hs : task.subtasks = some subs) (hi : i < subs.length) :
    (updateSubtaskState (updateSubtaskState task i).1 i).1 = task := by
  obtain ⟨tid, tcat, tsubs, tpay⟩ := task
  change tsubs = some subs at hs
  subst hs
  have h1 : (updateSubtaskState (Task.mk tid tcat (some subs) tpay) i).1 =
      Task.mk tid tcat (some (subs.set i (flipCompleted (subs.get ⟨i, hi⟩)))) tpay := by
    simp only [updateSubtaskState, Option.getD_some]
    rw [dif_pos hi]
  rw [h1]
  have hi2 : i < (subs.set i (flipCompleted (subs.get ⟨i, hi⟩))).length := by
    simpa using hi
  have h2 : (updateSubtaskState
      (Task.mk tid tcat (some (subs.set i (flipCompleted (subs.get ⟨i, hi⟩)))) tpay) i).1 =
      Task.mk tid tcat
        (some ((subs.set i (flipCompleted (subs.get ⟨i, hi⟩))).set i
          (flipCompleted ((subs.set i (flipCompleted (subs.get ⟨i, hi⟩))).get ⟨i, hi2⟩)))) tpay := by
    simp only [updateSubtaskState, Option.getD_some]
    rw [dif_pos hi2]
  rw [h2]
  have hget : (subs.set i (flipCompleted (subs.get ⟨i, hi⟩))).get ⟨i, hi2⟩ =
      flipCompleted (subs.get ⟨i, hi⟩) := by
    simp
  rw [hget, List.set_set]
  have hflip : flipCompleted (flipCompleted (subs.get ⟨i, hi⟩)) = subs.get ⟨i, hi⟩ := by
    obtain ⟨b, p⟩ := subs.get ⟨i, hi⟩
    simp [flipCompleted]
  rw [hflip, list_set_get_self]

/-- C10 witness: the double-toggle theorem instantiated at the sample task and
index 1. -/
theorem updateSubtaskState_involutive_check :
    (updateSubtaskState (updateSubtaskState sampleTask 1).1 1).1 = sampleTask :=
  updateSubtaskState_involutive sampleTask twoIncomplete 1 rfl (by decide)

end BoardProgressbar
